import Mathlib

/-!
Verification of the SlimIPL `IPLMixin`
(`nemo/collections/asr/parts/mixins/ipl_mixin.py`) against its
natural-language specification.  The mixin's control flow and data
transformations are embedded shallowly: the epoch counters are integers,
the training configuration is an explicit record, on-disk state is a
function from paths to optional contents, and the external labeling
collaborator (the ASR model) is a function parameter.
-/

namespace SlimIPL

/-- State read and written by `maybe_do_ipl` (ipl_mixin.py, lines 138-175).
`ipl_enabled` models the presence of `self.cfg.get("ipl")`;
`m_epochs` and `n_l_epochs` are the counters kept in `_ipl_params`;
`full_builds` / `incr_builds` count the `build_cache` calls with
`update_whole_cache` True / False (the only operations that touch the
cache); `update_calls` counts `update_training_sets` invocations;
`encoder_dropout` records the argument of the last `encoder.set_dropout`
call (`dropout_param` is `_ipl_params['dropout']`); `reload_every_n` is
`trainer.reload_dataloaders_every_n_epochs`; `cache_audio` and
`data_setups` mirror the trailing `cfg.train_ds.cache_audio = False`
write and the `setup_training_data` call. -/
structure IplState where
  ipl_enabled : Bool
  m_epochs : Int
  n_l_epochs : Int
  dropout_param : ℚ
  encoder_dropout : Option ℚ
  reload_every_n : Nat
  update_calls : Nat
  full_builds : Nat
  incr_builds : Nat
  cache_audio : Bool
  data_setups : Nat
deriving DecidableEq, Repr

/-- Shallow embedding of `IPLMixin.maybe_do_ipl` (ipl_mixin.py, lines
138-175).  The early return on a missing `ipl` section, the warm-up
decrement, the one-time full build with the dropout switch, the
dropout-hold decrement, the incremental refresh, the one-time
training-set update, and the trailing `setup_training_data` block are
translated branch for branch; `needs_update` is the flag set to False
inside the `m_epochs == 0` branch of the source. -/
def maybe_do_ipl (s : IplState) : IplState :=
  if s.ipl_enabled = false then s
  else if 0 < s.m_epochs then { s with m_epochs := s.m_epochs - 1 }
  else
    let s1 := if s.m_epochs = 0 then
      { s with full_builds := s.full_builds + 1,
               encoder_dropout := some s.dropout_param,
               m_epochs := s.m_epochs - 1 }
      else s
    let needs_update := ¬ (s.m_epochs = 0)
    if s1.m_epochs = -1 ∧ 0 < s1.n_l_epochs then
      { s1 with n_l_epochs := s1.n_l_epochs - 1 }
    else
      let s2 := if needs_update then { s1 with incr_builds := s1.incr_builds + 1 } else s1
      let s3 := if s2.n_l_epochs = 0 then
        { s2 with update_calls := s2.update_calls + 1, n_l_epochs := -1, reload_every_n := 1 }
        else s2
      { s3 with cache_audio := false, data_setups := s3.data_setups + 1 }

/-- `maybe_do_ipl` iterated: the sequence of epoch-boundary calls. -/
def iterate_ipl : Nat → IplState → IplState
  | 0, s => s
  | k + 1, s => maybe_do_ipl (iterate_ipl k s)

theorem maybe_do_ipl_warmup (s : IplState) (hen : s.ipl_enabled = true)
    (h : 0 < s.m_epochs) :
    maybe_do_ipl s = { s with m_epochs := s.m_epochs - 1 } := by
  simp [maybe_do_ipl, hen, h]

theorem maybe_do_ipl_first_build_pos (s : IplState) (hen : s.ipl_enabled = true)
    (hm : s.m_epochs = 0) (hn : 0 < s.n_l_epochs) :
    maybe_do_ipl s =
      { s with m_epochs := -1, n_l_epochs := s.n_l_epochs - 1,
               full_builds := s.full_builds + 1,
               encoder_dropout := some s.dropout_param } := by
  simp [maybe_do_ipl, hen, hm, hn]

theorem maybe_do_ipl_first_build_zero (s : IplState) (hen : s.ipl_enabled = true)
    (hm : s.m_epochs = 0) (hn : s.n_l_epochs = 0) :
    maybe_do_ipl s =
      { s with m_epochs := -1, n_l_epochs := -1,
               full_builds := s.full_builds + 1,
               encoder_dropout := some s.dropout_param,
               update_calls := s.update_calls + 1,
               reload_every_n := 1, cache_audio := false,
               data_setups := s.data_setups + 1 } := by
  simp [maybe_do_ipl, hen, hm, hn]

theorem maybe_do_ipl_hold (s : IplState) (hen : s.ipl_enabled = true)
    (hm : s.m_epochs = -1) (hn : 0 < s.n_l_epochs) :
    maybe_do_ipl s = { s with n_l_epochs := s.n_l_epochs - 1 } := by
  simp [maybe_do_ipl, hen, hm, hn]

theorem maybe_do_ipl_active_update (s : IplState) (hen : s.ipl_enabled = true)
    (hm : s.m_epochs = -1) (hn : s.n_l_epochs = 0) :
    maybe_do_ipl s =
      { s with incr_builds := s.incr_builds + 1,
               update_calls := s.update_calls + 1,
               n_l_epochs := -1, reload_every_n := 1,
               cache_audio := false, data_setups := s.data_setups + 1 } := by
  simp [maybe_do_ipl, hen, hm, hn]

theorem maybe_do_ipl_active_post (s : IplState) (hen : s.ipl_enabled = true)
    (hm : s.m_epochs = -1) (hn : s.n_l_epochs < 0) :
    maybe_do_ipl s =
      { s with incr_builds := s.incr_builds + 1,
               cache_audio := false, data_setups := s.data_setups + 1 } := by
  have h1 : ¬ (0 < s.n_l_epochs) := by omega
  have h2 : ¬ (s.n_l_epochs = 0) := by omega
  simp [maybe_do_ipl, hen, hm, h1, h2]

/-- C1: Starting from a configured IPL state with `m_epochs = 2`, the
first two `maybe_do_ipl` calls only decrement `m_epochs` and leave the
cache untouched (no `build_cache` call of either kind); the third call
performs exactly one full cache build (`build_cache` with
`update_whole_cache=True`), sets the encoder dropout to the configured
value, and decrements `m_epochs` to `-1`. -/
theorem maybe_do_ipl_two_warmups_then_full_build (s0 : IplState)
    (hen : s0.ipl_enabled = true) (hm : s0.m_epochs = 2) :
    maybe_do_ipl s0 = { s0 with m_epochs := 1 } ∧
    maybe_do_ipl (maybe_do_ipl s0) = { s0 with m_epochs := 0 } ∧
    (maybe_do_ipl (maybe_do_ipl (maybe_do_ipl s0))).full_builds = s0.full_builds + 1 ∧
    (maybe_do_ipl (maybe_do_ipl (maybe_do_ipl s0))).incr_builds = s0.incr_builds ∧
    (maybe_do_ipl (maybe_do_ipl (maybe_do_ipl s0))).encoder_dropout = some s0.dropout_param ∧
    (maybe_do_ipl (maybe_do_ipl (maybe_do_ipl s0))).m_epochs = -1 := by
  have h1 : maybe_do_ipl s0 = { s0 with m_epochs := 1 } := by
    rw [maybe_do_ipl_warmup s0 hen (by omega)]
    simp [hm]
  have h2 : maybe_do_ipl (maybe_do_ipl s0) = { s0 with m_epochs := 0 } := by
    rw [h1, maybe_do_ipl_warmup { s0 with m_epochs := 1 } (by simpa using hen) (by simp)]
    simp
  refine ⟨h1, h2, ?_⟩
  rw [h2]
  set t : IplState := { s0 with m_epochs := 0 } with ht
  rcases lt_trichotomy t.n_l_epochs 0 with hn | hn | hn
  · have h2' : ¬ (0 < t.n_l_epochs) := by omega
    have h0' : ¬ (t.n_l_epochs = 0) := by omega
    simp only [maybe_do_ipl, ht]
    simp [hen, h2', h0', hn, show ¬ ((0:Int) < 0) by omega]
  · rw [maybe_do_ipl_first_build_zero t (by simp [ht, hen]) (by simp [ht]) hn]
    simp [ht]
  · rw [maybe_do_ipl_first_build_pos t (by simp [ht, hen]) (by simp [ht]) hn]
    simp [ht]

theorem maybe_do_ipl_two_warmups_then_full_build_witness :
    (let s0 : IplState :=
      { ipl_enabled := true, m_epochs := 2, n_l_epochs := 1, dropout_param := 1/10,
        encoder_dropout := none, reload_every_n := 0, update_calls := 0,
        full_builds := 0, incr_builds := 0, cache_audio := true, data_setups := 0 }
     maybe_do_ipl s0 = { s0 with m_epochs := 1 } ∧
     maybe_do_ipl (maybe_do_ipl s0) = { s0 with m_epochs := 0 } ∧
     (maybe_do_ipl (maybe_do_ipl (maybe_do_ipl s0))).full_builds = s0.full_builds + 1 ∧
     (maybe_do_ipl (maybe_do_ipl (maybe_do_ipl s0))).incr_builds = s0.incr_builds ∧
     (maybe_do_ipl (maybe_do_ipl (maybe_do_ipl s0))).encoder_dropout = some s0.dropout_param ∧
     (maybe_do_ipl (maybe_do_ipl (maybe_do_ipl s0))).m_epochs = -1) :=
  maybe_do_ipl_two_warmups_then_full_build _ rfl rfl

/-- Trajectory of the phase controller: starting from a configured state
with `m_epochs = M ≥ 0`, `n_l_epochs = N ≥ 0` and no
`update_training_sets` call yet, the first `M` calls only count down
`m_epochs`; calls `M+1 .. M+N` run at `m_epochs = -1` with `n_l_epochs`
counting down and still no training-set update; every call after
`M+N` sees the completion sentinel `n_l_epochs = -1`, exactly one
training-set update on record, and the reload policy set to `1`. -/
theorem iterate_ipl_traj (s0 : IplState) (M N : ℕ)
    (hen : s0.ipl_enabled = true) (hm : s0.m_epochs = (M : Int))
    (hn : s0.n_l_epochs = (N : Int)) (hu : s0.update_calls = 0) :
    ∀ k : ℕ,
      (k ≤ M → iterate_ipl k s0 = { s0 with m_epochs := (M : Int) - (k : Int) })
      ∧ (M < k → k ≤ M + N →
          (iterate_ipl k s0).ipl_enabled = true ∧
          (iterate_ipl k s0).m_epochs = -1 ∧
          (iterate_ipl k s0).n_l_epochs = (N : Int) - ((k : Int) - (M : Int)) ∧
          (iterate_ipl k s0).update_calls = 0)
      ∧ (M + N < k →
          (iterate_ipl k s0).ipl_enabled = true ∧
          (iterate_ipl k s0).m_epochs = -1 ∧
          (iterate_ipl k s0).n_l_epochs = -1 ∧
          (iterate_ipl k s0).update_calls = 1 ∧
          (iterate_ipl k s0).reload_every_n = 1) := by
  intro k
  induction k with
  | zero =>
      refine ⟨fun _ => ?_, fun h h' => absurd h (by omega), fun h => absurd h (by omega)⟩
      cases s0
      simp_all [iterate_ipl]
  | succ k ih =>
      obtain ⟨ih1, ih2, ih3⟩ := ih
      refine ⟨fun h => ?_, fun h h' => ?_, fun h => ?_⟩
      · -- still warming up
        have hk : k ≤ M := by omega
        rw [iterate_ipl, ih1 hk,
          maybe_do_ipl_warmup _ (by simpa using hen) (by simp; omega)]
        cases s0
        simp only at *
        simp [IplState.mk.injEq]
        omega
      · -- m_epochs has hit -1; dropout hold or the first-build call itself
        rcases Nat.lt_or_ge M k with hMk | hMk
        · -- a plain hold step from a clause-2 state
          have hk2 := ih2 hMk (by omega)
          have hnpos : 0 < (iterate_ipl k s0).n_l_epochs := by
            rw [hk2.2.2.1]; omega
          rw [iterate_ipl, maybe_do_ipl_hold _ hk2.1 hk2.2.1 hnpos]
          refine ⟨by simp [hk2.1], by simp [hk2.2.1], ?_, by simp [hk2.2.2.2]⟩
          simp only [IplState.n_l_epochs]
          rw [hk2.2.2.1]
          push_cast
          omega
        · -- k = M: this is the first-build call, with n_l_epochs = N > 0
          have hkM : k = M := by omega
          have hNpos : 0 < N := by omega
          have e1 := ih1 (by omega)
          rw [iterate_ipl, e1,
            maybe_do_ipl_first_build_pos _ (by simpa using hen) (by simp; omega)
              (by simp [hn]; omega)]
          refine ⟨by simpa using hen, by simp, ?_, by simpa using hu⟩
          simp [hn]
          omega
      · -- the training-set update has happened
        rcases Nat.lt_or_ge (M + N) k with hMNk | hMNk
        · -- a steady-state incremental-refresh step from a clause-3 state
          have hk3 := ih3 hMNk
          have hneg : (iterate_ipl k s0).n_l_epochs < 0 := by rw [hk3.2.2.1]; omega
          rw [iterate_ipl, maybe_do_ipl_active_post _ hk3.1 hk3.2.1 hneg]
          exact ⟨by simp [hk3.1], by simp [hk3.2.1], by simp [hk3.2.2.1],
            by simp [hk3.2.2.2.1], by simp [hk3.2.2.2.2]⟩
        · -- k = M + N: the call that performs the one training-set update
          have hkMN : k = M + N := by omega
          rcases Nat.eq_zero_or_pos N with hN0 | hNpos
          · -- N = 0: the first-build call also updates the training sets
            have hkM : k = M := by omega
            have e1 := ih1 (by omega)
            rw [iterate_ipl, e1,
              maybe_do_ipl_first_build_zero _ (by simpa using hen) (by simp; omega)
                (by simp [hn, hN0])]
            exact ⟨by simpa using hen, by simp, by simp, by simp [hu], by simp⟩
          · -- N > 0: a clause-2 state with n_l_epochs = 0
            have hk2 := ih2 (by omega) (by omega)
            have hn0 : (iterate_ipl k s0).n_l_epochs = 0 := by
              rw [hk2.2.2.1, hkMN]; push_cast; ring
            rw [iterate_ipl, maybe_do_ipl_active_update _ hk2.1 hk2.2.1 hn0]
            exact ⟨by simp [hk2.1], by simp [hk2.2.1], by simp,
              by simp [hk2.2.2.2], by simp⟩

/-- C5: Along every sequence of `maybe_do_ipl` calls from a configured
state with `m_epochs = M ≥ 0`, `n_l_epochs = N ≥ 0` and no prior
training-set update, `update_training_sets` is invoked exactly once,
namely on call number `M + N + 1` — the first call at which `m_epochs`
has reached `-1` and `n_l_epochs` equals `0` — and from that call on
`n_l_epochs` carries the completion sentinel `-1` and
`trainer.reload_dataloaders_every_n_epochs` is `1`; no earlier or later
call invokes `update_training_sets`. -/
theorem update_training_sets_called_exactly_once (s0 : IplState) (M N : ℕ)
    (hen : s0.ipl_enabled = true) (hm : s0.m_epochs = (M : Int))
    (hn : s0.n_l_epochs = (N : Int)) (hu : s0.update_calls = 0) (k : ℕ) :
    ((iterate_ipl k s0).update_calls = if M + N + 1 ≤ k then 1 else 0)
    ∧ (M + N + 1 ≤ k →
        (iterate_ipl k s0).n_l_epochs = -1 ∧
        (iterate_ipl k s0).reload_every_n = 1) := by
  obtain ⟨c1, c2, c3⟩ := iterate_ipl_traj s0 M N hen hm hn hu k
  by_cases h : M + N + 1 ≤ k
  · have h3 := c3 (by omega)
    exact ⟨by simp [h, h3.2.2.2.1], fun _ => ⟨h3.2.2.1, h3.2.2.2.2⟩⟩
  · refine ⟨?_, fun hc => absurd hc h⟩
    rcases le_or_lt k M with hk | hk
    · rw [c1 hk]
      simp [h, hu]
    · have h2 := c2 hk (by omega)
      simp [h, h2.2.2.2]

theorem update_training_sets_called_exactly_once_witness :
    (let s0 : IplState :=
      { ipl_enabled := true, m_epochs := 1, n_l_epochs := 1, dropout_param := 1/10,
        encoder_dropout := none, reload_every_n := 0, update_calls := 0,
        full_builds := 0, incr_builds := 0, cache_audio := true, data_setups := 0 }
     ((iterate_ipl 3 s0).update_calls = if 1 + 1 + 1 ≤ 3 then 1 else 0)
     ∧ (1 + 1 + 1 ≤ 3 →
         (iterate_ipl 3 s0).n_l_epochs = -1 ∧
         (iterate_ipl 3 s0).reload_every_n = 1)) :=
  update_training_sets_called_exactly_once _ 1 1 rfl rfl rfl rfl 3

/-- The required configuration keys of `_set_ipl_params`
(ipl_mixin.py, line 104). -/
def required_params : List String :=
  ["m_epochs", "manifest_filepath", "is_tarred", "dropout", "n_l_epochs", "p_cache"]

/-- The supported configuration keys of `_set_ipl_params`
(ipl_mixin.py, lines 106-120). -/
def supported_params : List String :=
  ["m_epochs", "restore_pc", "manifest_filepath", "tarred_audio_filepaths",
   "is_tarred", "dataset_weights", "dropout", "limit_train_batches",
   "cache_manifest", "n_l_epochs", "p_cache", "cache_prefix", "batch_size"]

/-- Shallow embedding of `IPLMixin._set_ipl_params` (ipl_mixin.py, lines
97-136).  The configuration is a finite key/value mapping, generic in
the value type; keys in `supported_params` are stored into
`_ipl_params`, others are only logged; after the loop a nonempty set of
missing required keys raises `ValueError`, returned here as `.error`.
The extra-parameter pass at lines 134-136 only logs and is not part of
the returned state. -/
def set_ipl_params {V : Type} (ipl_config : List (String × V)) :
    Except (List String) (List (String × V)) :=
  let params := ipl_config.filter (fun kv => decide (kv.1 ∈ supported_params))
  let missing := required_params.filter (fun k => decide (k ∉ params.map Prod.fst))
  if missing.isEmpty then .ok params else .error missing

theorem required_subset_supported :
    ∀ r ∈ required_params, r ∈ supported_params := by decide

theorem mem_stored_iff_mem_config {V : Type} (cfg : List (String × V))
    (r : String) (hr : r ∈ required_params) :
    (r ∈ (cfg.filter fun kv => decide (kv.1 ∈ supported_params)).map Prod.fst
      ↔ r ∈ cfg.map Prod.fst) := by
  constructor
  · intro h
    rcases List.mem_map.1 h with ⟨kv, hkv, rfl⟩
    exact List.mem_map.2 ⟨kv, (List.mem_filter.1 hkv).1, rfl⟩
  · intro h
    rcases List.mem_map.1 h with ⟨kv, hkv, rfl⟩
    exact List.mem_map.2
      ⟨kv, List.mem_filter.2 ⟨hkv, by simpa using required_subset_supported _ hr⟩, rfl⟩

/-- C7: `_set_ipl_params` fails exactly when a required key among
`m_epochs`, `manifest_filepath`, `is_tarred`, `dropout`, `n_l_epochs`,
`p_cache` is absent from the configuration; every stored parameter is a
supported key taken verbatim from the configuration, and a key outside
the supported set is never stored (warned and ignored) and never makes
setup fail. -/
theorem set_ipl_params_required_iff {V : Type} (cfg : List (String × V)) :
    ((set_ipl_params cfg).isOk = true ↔
      ∀ r ∈ required_params, r ∈ cfg.map Prod.fst)
    ∧ (∀ ps, set_ipl_params cfg = .ok ps →
        ∀ kv ∈ ps, kv.1 ∈ supported_params ∧ kv ∈ cfg)
    ∧ (∀ kv ∈ cfg, kv.1 ∉ supported_params →
        ∀ ps, set_ipl_params cfg = .ok ps → kv.1 ∉ ps.map Prod.fst) := by
  refine ⟨?_, ?_, ?_⟩
  · unfold set_ipl_params
    dsimp only
    split
    case isTrue hempty =>
      simp only [Except.isOk, Except.toBool, true_iff]
      intro r hr
      rw [← mem_stored_iff_mem_config cfg r hr]
      have hnil := List.isEmpty_iff_eq_nil.1 hempty
      have := List.filter_eq_nil.1 hnil r hr
      simpa using this
    case isFalse hempty =>
      simp only [Except.isOk, Except.toBool]
      constructor
      · intro h
        simp at h
      intro hall
      exfalso
      apply hempty
      apply List.isEmpty_iff_eq_nil.2
      apply List.filter_eq_nil.2
      intro r hr
      simpa using (mem_stored_iff_mem_config cfg r hr).2 (hall r hr)
  · intro ps hps kv hkv
    unfold set_ipl_params at hps
    dsimp only at hps
    split at hps
    · cases hps
      have h := List.mem_filter.1 hkv
      exact ⟨by simpa using h.2, h.1⟩
    · cases hps
  · intro kv hkv hunsup ps hps hmem
    unfold set_ipl_params at hps
    dsimp only at hps
    split at hps
    · cases hps
      rcases List.mem_map.1 hmem with ⟨kv', hkv', he⟩
      have h := List.mem_filter.1 hkv'
      exact hunsup (by rw [← he]; simpa using h.2)
    · cases hps

theorem set_ipl_params_required_iff_witness :
    (set_ipl_params [("m_epochs", 0), ("manifest_filepath", 0), ("is_tarred", 0),
      ("dropout", 0), ("n_l_epochs", 0), ("p_cache", 0), ("bogus_key", 0)]).isOk = true :=
  (set_ipl_params_required_iff _).1.mpr (by decide)

/-- The trainer handle as `setup_ipl` sees it: only `max_steps` is read. -/
structure Trainer where
  max_steps : Int
deriving DecidableEq, Repr

/-- Errors `setup_ipl` can raise. -/
inductive SetupError where
  | max_steps_missing : SetupError
  | missing_params : List String → SetupError
deriving DecidableEq, Repr

/-- Shallow embedding of `IPLMixin.setup_ipl` (ipl_mixin.py, lines
71-95) up to and including `_set_ipl_params`.  A missing `ipl` section
leaves `_ipl_params` empty; with an `ipl` section present, a truthy
`self.trainer` whose `max_steps` is negative raises `ValueError` before
anything else; otherwise the parameters are stored.  The subsequent
cache-manifest naming (lines 86-95) calls
`formulate_cache_manifest_names` from `ipl_utils`, which is outside
`src/` and does not affect the error behaviour modelled here. -/
def setup_ipl {V : Type} (ipl_config : Option (List (String × V)))
    (trainer : Option Trainer) : Except SetupError (List (String × V)) :=
  match ipl_config with
  | none => .ok []
  | some cfg =>
    let check : Except SetupError Unit :=
      match trainer with
      | some t => if t.max_steps < 0 then .error .max_steps_missing else .ok ()
      | none => .ok ()
    match check with
    | .error e => .error e
    | .ok _ =>
      match set_ipl_params cfg with
      | .error missing => .error (.missing_params missing)
      | .ok ps => .ok ps

/-- C9: whenever an `ipl` section is present in the configuration and
the trainer's step budget is unconfigured (`max_steps` negative),
`setup_ipl` raises the `ValueError` — at construction time, before any
training step, and regardless of the rest of the configuration. -/
theorem setup_ipl_requires_max_steps {V : Type} (cfg : List (String × V))
    (t : Trainer) (h : t.max_steps < 0) :
    setup_ipl (some cfg) (some t) = .error .max_steps_missing := by
  simp [setup_ipl, h]

theorem setup_ipl_requires_max_steps_witness :
    setup_ipl (some [("m_epochs", 0)]) (some ⟨-1⟩) = .error .max_steps_missing :=
  setup_ipl_requires_max_steps _ _ (by decide)

/-- An omegaconf-style configuration value as `update_training_sets`
manipulates it: either a single path string or a (possibly nested) list. -/
inductive CVal where
  | s : String → CVal
  | l : List CVal → CVal

/-- The slice of `cfg.train_ds` read and written by
`update_training_sets` (ipl_mixin.py, lines 177-209). -/
structure TrainDS where
  is_tarred : Bool
  manifest_filepath : CVal
  tarred_audio_filepaths : CVal

/-- Shallow embedding of `IPLMixin.update_training_sets` (ipl_mixin.py,
lines 177-209).  `ipl_tarred_audio` is `_ipl_params['tarred_audio_filepaths']`,
`cache_manifest` is `_ipl_params['cache_manifest']`, and
`final_cache_manifests` is the value returned by
`combine_cache_hypotheses` at line 182.  Each isinstance branch of the
source is one match arm; the `limit_train_batches` write at lines
201-202 touches only the trainer and is not part of this record. -/
def update_training_sets (ds : TrainDS) (ipl_tarred_audio : CVal)
    (cache_manifest : CVal) (final_cache_manifests : List CVal) : TrainDS :=
  if ds.is_tarred then
    let tar' : CVal :=
      match ipl_tarred_audio, ds.tarred_audio_filepaths with
      | .s p, .s q => .l [.l [.s q], .l [.s p]]
      | .s p, .l xs => .l (xs ++ [.l [.s p]])
      | .l ys, .s q => .l ([.l [.s q]] ++ ys)
      | .l ys, .l xs => .l (xs ++ ys)
    let mf' : CVal :=
      match ds.manifest_filepath with
      | .s q => .l ([.l [.s q]] ++ final_cache_manifests)
      | .l xs => .l (xs ++ final_cache_manifests)
    { ds with tarred_audio_filepaths := tar', manifest_filepath := mf' }
  else
    let mf' : CVal :=
      match ds.manifest_filepath with
      | .s q => .l ([.s q] ++ [cache_manifest])
      | .l xs => .l (xs ++ [cache_manifest])
    { ds with manifest_filepath := mf' }

/-- The entries a configuration value already holds, after the wrapping
the tarred branch applies to a plain string (`[[str]]`). -/
def nested_entries : CVal → List CVal
  | .s p => [.l [.s p]]
  | .l xs => xs

/-- The entries a configuration value already holds, after the wrapping
the non-tarred branch applies to a plain string (`[str]`). -/
def flat_entries : CVal → List CVal
  | .s p => [.s p]
  | .l xs => xs

/-- C6: `update_training_sets` keeps every pre-existing training
data-source entry, in order, as the first data source and appends the
cache entries after them as the second data source: the new manifest
list is exactly the old entries followed by the cache manifest(s), and,
for tarred datasets, the new tar-path list is exactly the old entries
followed by the cache tar-audio entries; nothing is removed, replaced
or reordered, and in the non-tarred case the tar-path value is not
touched at all. -/
theorem update_training_sets_appends (ds : TrainDS) (ipl_tarred_audio : CVal)
    (cache_manifest : CVal) (final_cache_manifests : List CVal) :
    (update_training_sets ds ipl_tarred_audio cache_manifest final_cache_manifests).is_tarred
      = ds.is_tarred
    ∧ (update_training_sets ds ipl_tarred_audio cache_manifest final_cache_manifests).manifest_filepath
      = (if ds.is_tarred then
          .l (nested_entries ds.manifest_filepath ++ final_cache_manifests)
        else
          .l (flat_entries ds.manifest_filepath ++ [cache_manifest]))
    ∧ (update_training_sets ds ipl_tarred_audio cache_manifest final_cache_manifests).tarred_audio_filepaths
      = (if ds.is_tarred then
          .l (nested_entries ds.tarred_audio_filepaths ++ nested_entries ipl_tarred_audio)
        else
          ds.tarred_audio_filepaths) := by
  obtain ⟨tarflag, mf, tar⟩ := ds
  cases tarflag <;> cases mf <;> cases tar <;> cases ipl_tarred_audio <;>
    simp [update_training_sets, nested_entries, flat_entries]

/-- The host-model state the pseudo-label generators save, mutate and
restore (ipl_mixin.py, lines 512-526 and 581-589 / 611-624 and
673-678): the featurizer's `dither` and `pad_to`, the train/eval mode,
and the frozen flags of the four submodules (`joint` and `ctc_decoder`
exist only on hybrid models; for CTC-only models their flags are simply
never touched). -/
structure ModelState where
  dither : ℚ
  pad_to : Int
  training : Bool
  encoder_frozen : Bool
  decoder_frozen : Bool
  joint_frozen : Bool
  ctc_decoder_frozen : Bool
deriving DecidableEq, Repr

/-- Shallow embedding of `generate_pseudo_labels_ctc` (ipl_mixin.py,
lines 592-679) as a state transformer.  The statements are translated in
source order: save `dither`/`pad_to`, `eval()`, freeze encoder and
decoder, zero `dither`/`pad_to`, run the transcription loop (the
dataloader iteration, `forward` and decoding — external collaborators
returning the hypothesis list, which touch none of these fields),
`train()`, restore `dither`/`pad_to`, unfreeze encoder and decoder. -/
def generate_pseudo_labels_ctc (transcribe : ModelState → List String)
    (s : ModelState) : List String × ModelState :=
  let dither_value := s.dither
  let pad_to_value := s.pad_to
  let s := { s with training := false }
  let s := { s with encoder_frozen := true }
  let s := { s with decoder_frozen := true }
  let s := { s with dither := 0, pad_to := 0 }
  let hypotheses := transcribe s
  let s := { s with training := true }
  let s := { s with dither := dither_value, pad_to := pad_to_value }
  let s := { s with encoder_frozen := false }
  let s := { s with decoder_frozen := false }
  (hypotheses, s)

/-- Shallow embedding of `generate_pseudo_labels_hybrid` (ipl_mixin.py,
lines 493-590) as a state transformer, statement for statement as in
`generate_pseudo_labels_ctc` but additionally freezing and unfreezing
`joint` and `ctc_decoder`. -/
def generate_pseudo_labels_hybrid (transcribe : ModelState → List String)
    (s : ModelState) : List String × ModelState :=
  let dither_value := s.dither
  let pad_to_value := s.pad_to
  let s := { s with training := false }
  let s := { s with encoder_frozen := true }
  let s := { s with decoder_frozen := true }
  let s := { s with joint_frozen := true }
  let s := { s with ctc_decoder_frozen := true }
  let s := { s with dither := 0, pad_to := 0 }
  let hypotheses := transcribe s
  let s := { s with training := true }
  let s := { s with dither := dither_value, pad_to := pad_to_value }
  let s := { s with encoder_frozen := false }
  let s := { s with decoder_frozen := false }
  let s := { s with joint_frozen := false }
  let s := { s with ctc_decoder_frozen := false }
  (hypotheses, s)

/-- C10: every normally-returning labeling pass restores the featurizer:
after `generate_pseudo_labels_ctc` or `generate_pseudo_labels_hybrid`
the `dither` and `pad_to` values equal their values before the call
(they are zeroed only for the duration of the pass), the model is back
in training mode, and the frozen submodules are unfrozen again — the
pass has no net effect on this state beyond returning the hypothesis
list of the transcription loop. -/
theorem generate_pseudo_labels_restores_state
    (transcribe : ModelState → List String) (s : ModelState) :
    ((generate_pseudo_labels_ctc transcribe s).2.dither = s.dither
      ∧ (generate_pseudo_labels_ctc transcribe s).2.pad_to = s.pad_to
      ∧ (generate_pseudo_labels_ctc transcribe s).2.training = true
      ∧ (generate_pseudo_labels_ctc transcribe s).2.encoder_frozen = false
      ∧ (generate_pseudo_labels_ctc transcribe s).2.decoder_frozen = false
      ∧ (generate_pseudo_labels_ctc transcribe s).2.joint_frozen = s.joint_frozen
      ∧ (generate_pseudo_labels_ctc transcribe s).2.ctc_decoder_frozen = s.ctc_decoder_frozen)
    ∧ ((generate_pseudo_labels_hybrid transcribe s).2.dither = s.dither
      ∧ (generate_pseudo_labels_hybrid transcribe s).2.pad_to = s.pad_to
      ∧ (generate_pseudo_labels_hybrid transcribe s).2.training = true
      ∧ (generate_pseudo_labels_hybrid transcribe s).2.encoder_frozen = false
      ∧ (generate_pseudo_labels_hybrid transcribe s).2.decoder_frozen = false
      ∧ (generate_pseudo_labels_hybrid transcribe s).2.joint_frozen = false
      ∧ (generate_pseudo_labels_hybrid transcribe s).2.ctc_decoder_frozen = false) := by
  simp [generate_pseudo_labels_ctc, generate_pseudo_labels_hybrid]

/-- One manifest line: the `text` field the mixin reads and replaces,
and the rest of the JSON object, carried opaquely so that
"bit-identical" is expressible. -/
structure Record where
  text : String
  rest : String
deriving DecidableEq, Repr

/-- Attaching a hypothesis to a record, as the cache writers do: only
`text` is replaced, the remaining fields pass through untouched. -/
def set_text (r : Record) (t : String) : Record := { r with text := t }

/-- Modelled from the spec: `write_cache_manifest`
(nemo.collections.asr.parts.utils.ipl_utils) is not under `src/`.  Per
the spec (§4.3/§7), a hypothesis list whose length differs from the
candidate list is a contract violation and is fatal before any merge;
otherwise, on a full rebuild the cache is replaced wholesale with the
hypotheses substituted into the sampled records, and on an incremental
refresh only the sampled entries are overwritten and all other cached
entries are left untouched. -/
def write_cache_manifest (cache : List Record) (hypotheses : List Record → List String)
    (update_data : List Record) (update_whole_cache : Bool) :
    Except String (List Record) :=
  let hyps := hypotheses update_data
  if hyps.length = update_data.length then
    .ok (if update_whole_cache then
          List.zipWith set_text update_data hyps
        else
          cache.map (fun r =>
            match (List.zip update_data hyps).find? (fun uh => uh.1 = r) with
            | some uh => set_text r uh.2
            | none => r))
  else .error "Number of hypotheses does not match number of candidate records"

/-- The merge step of `create_cache_hypotheses` (ipl_mixin.py, lines
230-288) in the non-distributed branch: the sampled `update_data` is
labeled by the collaborator (`hypotheses`, one call per build, line 262
or 269) and the result is handed to `write_cache_manifest` (line 288). -/
def create_cache_hypotheses (hypotheses : List Record → List String)
    (update_data : List Record) (cache : List Record)
    (update_whole_cache : Bool) : Except String (List Record) :=
  write_cache_manifest cache hypotheses update_data update_whole_cache

/-- C8: if the labeling collaborator returns a number of hypotheses
different from the number of sampled candidate records, the cache build
fails fatally before any merge: `create_cache_hypotheses` returns the
contract-violation error and never an updated cache, so the persistent
cache manifest is never written with misaligned counts. -/
theorem create_cache_hypotheses_count_mismatch_fatal
    (hypotheses : List Record → List String) (update_data cache : List Record)
    (update_whole_cache : Bool)
    (h : (hypotheses update_data).length ≠ update_data.length) :
    create_cache_hypotheses hypotheses update_data cache update_whole_cache
      = .error "Number of hypotheses does not match number of candidate records"
    ∧ ∀ out, create_cache_hypotheses hypotheses update_data cache update_whole_cache
      ≠ .ok out := by
  unfold create_cache_hypotheses write_cache_manifest
  dsimp only
  rw [if_neg h]
  exact ⟨rfl, fun out hout => by cases hout⟩

theorem create_cache_hypotheses_count_mismatch_fatal_witness :
    (create_cache_hypotheses (fun _ => []) [⟨"", "audio1"⟩] [] true
      = .error "Number of hypotheses does not match number of candidate records")
    ∧ ∀ out, create_cache_hypotheses (fun _ => []) [⟨"", "audio1"⟩] [] true
      ≠ .ok out :=
  create_cache_hypotheses_count_mismatch_fatal _ _ _ _ (by decide)

/-- One incremental tar-cache refresh as it acts on the file system,
path-wise.  `update_tar_cache_hypotheses` (ipl_mixin.py, lines 378-458)
receives `_ipl_params['all_cache_manifests']` — assigned once in
`setup_ipl` (line 88) and never reassigned — re-expands it per rank
with the deterministic `scatter` strategy (lines 402-404, the same
expansion every call), and hands exactly those paths to the writer.
Modelled from the spec for the writer itself: `write_tar_cache_manifest`
(nemo.collections.asr.parts.utils.ipl_utils, not under `src/`) rewrites
each cache manifest path it is given in place and opens no other path
for writing; temporary per-cycle files live in a scope-local ephemeral
directory and never reach the cache path set. -/
def refresh_write (cache_paths : List String) (content : String → String)
    (fs : String → Option String) : String → Option String :=
  fun p => if p ∈ cache_paths then some (content p) else fs p

/-- Any number of incremental refreshes over the fixed cache path set;
`contents k` is the content written by refresh number `k` (each refresh
relabels a fresh sample, so contents differ call to call — paths do
not). -/
def iterate_refresh (cache_paths : List String) (contents : ℕ → String → String) :
    ℕ → (String → Option String) → String → Option String
  | 0, fs => fs
  | k + 1, fs => refresh_write cache_paths (contents k) (iterate_refresh cache_paths contents k fs)

/-- C3: the set of cache manifest file paths is identical before and
after any number of incremental refreshes: provided the cache paths
exist (established at full-build time), every path exists afterwards
exactly if it existed before — no new cache file path is ever created —
and any path outside the fixed cache path set is completely untouched,
contents included. -/
theorem iterate_refresh_preserves_paths (cache_paths : List String)
    (contents : ℕ → String → String) (fs : String → Option String)
    (hfull : ∀ p ∈ cache_paths, (fs p).isSome = true) (k : ℕ) (p : String) :
    ((iterate_refresh cache_paths contents k fs) p).isSome = (fs p).isSome
    ∧ (p ∉ cache_paths → iterate_refresh cache_paths contents k fs p = fs p) := by
  induction k with
  | zero => exact ⟨rfl, fun _ => rfl⟩
  | succ k ih =>
    unfold iterate_refresh refresh_write
    by_cases hp : p ∈ cache_paths
    · simp [hp, hfull p hp]
    · simpa [hp] using ih

theorem iterate_refresh_preserves_paths_witness :
    (((iterate_refresh ["shard_0_cache"] (fun _ _ => "new") 2
        (fun p => if p = "shard_0_cache" then some "old" else none)) "other_manifest").isSome
      = ((fun p : String => if p = "shard_0_cache" then some "old" else none) "other_manifest").isSome)
    ∧ ("other_manifest" ∉ ["shard_0_cache"] →
        iterate_refresh ["shard_0_cache"] (fun _ _ => "new") 2
          (fun p => if p = "shard_0_cache" then some "old" else none) "other_manifest"
        = (fun p : String => if p = "shard_0_cache" then some "old" else none) "other_manifest") :=
  iterate_refresh_preserves_paths ["shard_0_cache"] (fun _ _ => "new") _
    (by intro p hp; simp only [List.mem_singleton] at hp; subst hp; simp) 2 "other_manifest"

/-- The refresh size computed at ipl_mixin.py line 411:
`update_size = int(len(manifest_data) * self._ipl_params['p_cache'])`.
Python `int()` truncates toward zero, which for the nonnegative product
`N * p_cache` is the floor. -/
def update_size (n : ℕ) (p : ℚ) : ℕ := (⌊(n : ℚ) * p⌋).toNat

/-- Index of the first occurrence of `i` in a list of positions; this is
how a hypothesis (produced in `indices` order) is matched back to the
record position it refreshes. -/
def firstIdx : List ℕ → ℕ → Option ℕ
  | [], _ => none
  | x :: xs, i => if x = i then some 0 else (firstIdx xs i).map (· + 1)

theorem firstIdx_eq_none (l : List ℕ) (i : ℕ) (h : i ∉ l) :
    firstIdx l i = none := by
  induction l with
  | nil => rfl
  | cons x xs ih =>
    simp only [List.mem_cons, not_or] at h
    simp only [firstIdx]
    rw [if_neg (fun he => h.1 he.symm), ih h.2]
    rfl

theorem getD_mem_of_lt {α : Type} (l : List α) (n : ℕ) (d : α)
    (h : n < l.length) : l.getD n d ∈ l := by
  rw [List.getD_eq_getElem l d h]
  exact List.getElem_mem h

theorem firstIdx_getD (l : List ℕ) (hnd : l.Nodup) (j : ℕ) (hj : j < l.length) :
    firstIdx l (l.getD j 0) = some j := by
  induction l generalizing j with
  | nil => simp at hj
  | cons x xs ih =>
    cases j with
    | zero => simp [firstIdx]
    | succ j =>
      have hjx : j < xs.length := by simpa using hj
      have hmem : xs.getD j 0 ∈ xs := getD_mem_of_lt xs j (0 : ℕ) hjx
      have hx : ¬ (x = (x :: xs).getD (j + 1) 0) := by
        rw [List.getD_cons_succ]
        intro he
        rw [← he] at hmem
        exact (List.nodup_cons.1 hnd).1 hmem
      simp only [firstIdx, List.getD_cons_succ] at hx ⊢
      rw [if_neg hx, ih (List.nodup_cons.1 hnd).2 j hjx]
      rfl

theorem length_filter_range_mem (indices : List ℕ) (N : ℕ)
    (hnd : indices.Nodup) (hlt : ∀ i ∈ indices, i < N) :
    ((List.range N).filter (fun i => decide (i ∈ indices))).length
      = indices.length := by
  have h1 : ((List.range N).filter (fun i => decide (i ∈ indices))).Nodup :=
    (List.nodup_range N).filter _
  have hperm : ((List.range N).filter fun i => decide (i ∈ indices)).Perm indices := by
    rw [List.perm_ext_iff_of_nodup h1 hnd]
    intro a
    simp only [List.mem_filter, List.mem_range, decide_eq_true_eq]
    exact ⟨fun h => h.2, fun h => ⟨hlt a h, h⟩⟩
  exact hperm.length_eq

/-- Modelled from the spec for the writer: `write_tar_cache_manifest`
(nemo.collections.asr.parts.utils.ipl_utils) is not under `src/`.  Per
the spec (§4.4/§8), on an incremental refresh the cache records at the
explicitly tracked index positions are overwritten with the hypothesis
generated for them (the pairing is positional: hypothesis `j` belongs
to position `indices[j]`), and every other record survives the merge
bit-identically. -/
def refreshed_shard (records : List Record) (indices : List ℕ)
    (hyps : List String) : List Record :=
  (List.range records.length).map fun i =>
    match firstIdx indices i with
    | some j => set_text (records.getD i ⟨"", ""⟩) (hyps.getD j "")
    | none => records.getD i ⟨"", ""⟩

/-- One shard's pass of `update_tar_cache_hypotheses` (ipl_mixin.py,
lines 408-456): `indices` stands for the value of
`random.sample(range(len(manifest_data)), update_size)` at line 413
(its contract — a uniformly drawn, duplicate-free subset of the
positions, of size `update_size` — enters the theorems as hypotheses);
`update_data` is the sampled records in `indices` order (line 414), the
labeling collaborator produces one hypothesis per sampled record in
order, and the writer merges them back at the sampled positions. -/
def update_tar_cache_shard (label : List Record → List String)
    (indices : List ℕ) (records : List Record) : List Record :=
  let update_data := indices.map (fun i => records.getD i ⟨"", ""⟩)
  refreshed_shard records indices (label update_data)

theorem getD_refreshed (records : List Record) (indices : List ℕ)
    (hyps : List String) (i : ℕ) (hi : i < records.length) :
    (refreshed_shard records indices hyps).getD i ⟨"", ""⟩
      = (match firstIdx indices i with
          | some j => set_text (records.getD i ⟨"", ""⟩) (hyps.getD j "")
          | none => records.getD i ⟨"", ""⟩) := by
  unfold refreshed_shard
  rw [List.getD_eq_getElem _ _ (by simpa using hi)]
  simp

/-- C2: for an incremental tar-cache refresh over a shard manifest of
`N` records with refresh fraction `p_cache`, given the contract of
`random.sample` (a duplicate-free set of positions below `N` of size
`int(N * p_cache)`) and of the labeling collaborator (one hypothesis
per sampled record), exactly `⌊N * p_cache⌋` distinct record positions
are replaced — each with the hypothesis newly generated for it — and
every one of the remaining `N - ⌊N * p_cache⌋` positions is written
back bit-identical to the prior cache record. -/
theorem update_tar_cache_shard_exact_refresh (label : List Record → List String)
    (p : ℚ) (records : List Record) (indices : List ℕ)
    (hp : 0 ≤ p) (hnd : indices.Nodup)
    (hlt : ∀ i ∈ indices, i < records.length)
    (hsz : indices.length = update_size records.length p)
    (hlab : ∀ l, (label l).length = l.length) :
    (update_tar_cache_shard label indices records).length = records.length
    ∧ ((List.range records.length).filter (fun i => decide (i ∈ indices))).length
        = update_size records.length p
    ∧ (∀ i, i < records.length → i ∉ indices →
        (update_tar_cache_shard label indices records).getD i ⟨"", ""⟩
          = records.getD i ⟨"", ""⟩)
    ∧ (∀ j, j < indices.length →
        (update_tar_cache_shard label indices records).getD (indices.getD j 0) ⟨"", ""⟩
          = set_text (records.getD (indices.getD j 0) ⟨"", ""⟩)
              ((label (indices.map (fun i => records.getD i ⟨"", ""⟩))).getD j "")) := by
  refine ⟨?_, ?_, ?_, ?_⟩
  · simp [update_tar_cache_shard, refreshed_shard]
  · rw [length_filter_range_mem indices records.length hnd hlt]
    exact hsz
  · intro i hi hnotmem
    unfold update_tar_cache_shard
    rw [getD_refreshed records indices _ i hi, firstIdx_eq_none indices i hnotmem]
  · intro j hj
    have hmem : indices.getD j 0 ∈ indices := getD_mem_of_lt indices j (0 : ℕ) hj
    unfold update_tar_cache_shard
    rw [getD_refreshed records indices _ _ (hlt _ hmem),
      firstIdx_getD indices hnd j hj]

theorem update_tar_cache_shard_exact_refresh_witness :
    ((update_tar_cache_shard (fun l => l.map (fun _ => "hyp")) [1]
        [⟨"a", "r0"⟩, ⟨"b", "r1"⟩]).length = 2
    ∧ ((List.range 2).filter (fun i => decide (i ∈ [1]))).length = update_size 2 (1/2)
    ∧ (∀ i, i < 2 → i ∉ [1] →
        (update_tar_cache_shard (fun l => l.map (fun _ => "hyp")) [1]
          [⟨"a", "r0"⟩, ⟨"b", "r1"⟩]).getD i ⟨"", ""⟩
          = [(⟨"a", "r0"⟩ : Record), ⟨"b", "r1"⟩].getD i ⟨"", ""⟩)
    ∧ (∀ j, j < [1].length →
        (update_tar_cache_shard (fun l => l.map (fun _ => "hyp")) [1]
          [⟨"a", "r0"⟩, ⟨"b", "r1"⟩]).getD ([1].getD j 0) ⟨"", ""⟩
          = set_text ([(⟨"a", "r0"⟩ : Record), ⟨"b", "r1"⟩].getD ([1].getD j 0) ⟨"", ""⟩)
              ((([1].map (fun i => [(⟨"a", "r0"⟩ : Record), ⟨"b", "r1"⟩].getD i ⟨"", ""⟩)).map
                  (fun _ => "hyp")).getD j ""))) :=
  update_tar_cache_shard_exact_refresh (fun l => l.map (fun _ => "hyp")) (1/2)
    [⟨"a", "r0"⟩, ⟨"b", "r1"⟩] [1] (by norm_num) (by decide)
    (by decide) (by norm_num [update_size]) (fun l => by simp)

/-- Python `str.split()` with no argument, on the character list:
splits on runs of whitespace and produces no empty words. -/
def splitWsAux : List Char → List Char → List (List Char)
  | [], acc => if acc.isEmpty then [] else [acc.reverse]
  | c :: cs, acc =>
      if c = ' ' ∨ c = '\t' ∨ c = '\n' ∨ c = '\r' then
        if acc.isEmpty then splitWsAux cs [] else acc.reverse :: splitWsAux cs []
      else splitWsAux cs (c :: acc)

/-- `target.split()` / `compare_text.split()` as used at ipl_mixin.py
lines 642, 650 (and 548, 556). -/
def pySplit (s : String) : List String := (splitWsAux s.data []).map String.mk

/-- Python `str.lower()` (ASCII case), `compare_text.lower()` at line
648 / 554. -/
def py_lower (s : String) : String := String.mk (s.data.map Char.toLower)

/-- Modelled from the spec: `rm_punctuation`
(nemo.collections.asr.parts.utils.ipl_utils) is not under `src/`; per
the spec it strips the fixed punctuation set from the text, embedded
here as removing every character of `punct`. -/
def rm_punctuation (s : String) (punct : String) : String :=
  String.mk (s.data.filter (fun c => decide (c ∉ punct.data)))

/-- Word-level Levenshtein distance (the `editdistance.eval` call at
line 651 / 557), via the textbook recurrence with a structural fuel
argument large enough for every reachable call. -/
def levF : Nat → List String → List String → Nat
  | 0, xs, ys => xs.length + ys.length
  | _ + 1, [], ys => ys.length
  | _ + 1, x :: xs, [] => (x :: xs).length
  | f + 1, x :: xs, y :: ys =>
      if x = y then levF f xs ys
      else 1 + min (levF f xs ys) (min (levF f (x :: xs) ys) (levF f xs (y :: ys)))

/-- `editdistance.eval` on word lists. -/
def lev (xs ys : List String) : Nat := levF (xs.length + ys.length + 1) xs ys

/-- The per-candidate distance computed in the reconciliation loop
(ipl_mixin.py, lines 645-651 and 551-557): the candidate text is
lowercased, stripped of the punctuation set ",.?" and split into words,
then compared to the given reference word list. -/
def wer_dist (target_split_w : List String) (candidate : String) : Nat :=
  lev target_split_w (pySplit (rm_punctuation (py_lower candidate) ",.?"))

/-- The reconciliation loop itself (ipl_mixin.py, lines 643-654 and
549-560): starting from `min_pred_text = ""` and `wer_dist_min = 1000`,
each candidate whose distance is strictly smaller than the current
minimum becomes the new selection. -/
def selectGo (d : String → Nat) : List String → String → Nat → String
  | [], best, _ => best
  | c :: rest, best, bestD =>
      if d c < bestD then selectGo d rest c (d c) else selectGo d rest best bestD

/-- The hypothesis selected for one record by the reconciliation branch:
note that the reference word list is `target.split()` on the RAW target
(line 642 / 548) — the target is not lowercased or stripped. -/
def select_min_wer (target : String) (beams : List String) : String :=
  selectGo (wer_dist (pySplit target)) beams "" 1000

/-- Per-record choice in `generate_pseudo_labels_ctc` (lines 639-658):
reconciliation when `target` is non-empty and `restore_pc` is set,
otherwise the top beam hypothesis `best_text`;
`generate_pseudo_labels_hybrid` (lines 544-565) tests the same two
conditions in the opposite nesting order, with the same result. -/
def choose_hypothesis (restore_pc : Bool) (target best_text : String)
    (beams : List String) : String :=
  if target ≠ "" ∧ restore_pc = true then select_min_wer target beams else best_text

/-- The selection as the claim words it: the same loop, but with the
distance measured against the stripped (lowercased,
punctuation-stripped) target. -/
def select_min_wer_stripped (target : String) (beams : List String) : String :=
  selectGo (wer_dist (pySplit (rm_punctuation (py_lower target) ",.?"))) beams "" 1000

theorem selectGo_no_update (d : String → Nat) :
    ∀ (beams : List String) (best : String) (bestD : Nat),
      (∀ c ∈ beams, ¬ d c < bestD) → selectGo d beams best bestD = best := by
  intro beams
  induction beams with
  | nil => intro best bestD _; rfl
  | cons c rest ih =>
    intro best bestD h
    unfold selectGo
    rw [if_neg (h c (List.mem_cons_self c rest))]
    exact ih best bestD (fun x hx => h x (List.mem_cons_of_mem c hx))

theorem selectGo_first_min (d : String → Nat) :
    ∀ (beams : List String) (best : String) (bestD : Nat),
      (∃ c ∈ beams, d c < bestD) →
      ∃ i, i < beams.length
        ∧ selectGo d beams best bestD = beams.getD i ""
        ∧ d (beams.getD i "") < bestD
        ∧ (∀ c ∈ beams, d (beams.getD i "") ≤ d c)
        ∧ (∀ j, j < i → d (beams.getD i "") < d (beams.getD j "")) := by
  intro beams
  induction beams with
  | nil =>
    intro best bestD h
    rcases h with ⟨c, hc, _⟩
    simp at hc
  | cons c rest ih =>
    intro best bestD hex
    by_cases hd : d c < bestD
    · unfold selectGo
      rw [if_pos hd]
      by_cases hrest : ∃ x ∈ rest, d x < d c
      · rcases ih c (d c) hrest with ⟨i, hi, hres, hlt, hmin, hstrict⟩
        refine ⟨i + 1, by simpa using Nat.succ_lt_succ hi, ?_, ?_, ?_, ?_⟩
        · rw [hres, List.getD_cons_succ]
        · rw [List.getD_cons_succ]; exact lt_trans hlt hd
        · intro x hx
          rw [List.getD_cons_succ]
          rcases List.mem_cons.1 hx with rfl | hx'
          · exact le_of_lt hlt
          · exact hmin x hx'
        · intro j hj
          cases j with
          | zero => simpa [List.getD_cons_succ, List.getD_cons_zero] using hlt
          | succ j' =>
            rw [List.getD_cons_succ, List.getD_cons_succ]
            exact hstrict j' (by omega)
      · push_neg at hrest
        have hstay := selectGo_no_update d rest c (d c)
          (fun x hx => not_lt.2 (hrest x hx))
        refine ⟨0, by simp, ?_, ?_, ?_, ?_⟩
        · rw [hstay, List.getD_cons_zero]
        · rw [List.getD_cons_zero]; exact hd
        · intro x hx
          rw [List.getD_cons_zero]
          rcases List.mem_cons.1 hx with rfl | hx'
          · exact le_refl _
          · exact hrest x hx'
        · intro j hj; omega
    · unfold selectGo
      rw [if_neg hd]
      have hex' : ∃ x ∈ rest, d x < bestD := by
        rcases hex with ⟨x, hx, hxd⟩
        rcases List.mem_cons.1 hx with rfl | hx'
        · exact absurd hxd hd
        · exact ⟨x, hx', hxd⟩
      rcases ih best bestD hex' with ⟨i, hi, hres, hlt, hmin, hstrict⟩
      refine ⟨i + 1, by simpa using Nat.succ_lt_succ hi, ?_, ?_, ?_, ?_⟩
      · rw [hres, List.getD_cons_succ]
      · rw [List.getD_cons_succ]; exact hlt
      · intro x hx
        rw [List.getD_cons_succ]
        rcases List.mem_cons.1 hx with rfl | hx'
        · exact le_of_lt (lt_of_lt_of_le hlt (not_lt.1 hd))
        · exact hmin x hx'
      · intro j hj
        cases j with
        | zero =>
          rw [List.getD_cons_succ, List.getD_cons_zero]
          exact lt_of_lt_of_le hlt (not_lt.1 hd)
        | succ j' =>
          rw [List.getD_cons_succ, List.getD_cons_succ]
          exact hstrict j' (by omega)

/-- C4 counterexample: with reconciliation requested and the non-empty
target `"hello."`, the code selects `"goodbye"` from the candidates
`["goodbye", "hello"]` — the loop compares against the raw
`target.split()`, under which both candidates are at distance 1 and the
first-seen one wins — even though the candidate `"hello"` has strictly
smaller distance (0 versus 1) to the stripped target, so the selection
the claim describes would be `"hello"`.  The claim as stated is
therefore false on this input. -/
theorem choose_hypothesis_stripped_target_counterexample :
    choose_hypothesis true "hello." "" ["goodbye", "hello"] = "goodbye"
    ∧ "hello" ∈ (["goodbye", "hello"] : List String)
    ∧ wer_dist (pySplit (rm_punctuation (py_lower "hello.") ",.?")) "hello" = 0
    ∧ wer_dist (pySplit (rm_punctuation (py_lower "hello.") ",.?")) "goodbye" = 1
    ∧ select_min_wer_stripped "hello." ["goodbye", "hello"] = "hello"
    ∧ choose_hypothesis true "hello." "" ["goodbye", "hello"]
        ≠ select_min_wer_stripped "hello." ["goodbye", "hello"] := by
  decide

/-- C4 (amended): when reconciliation is requested (`restore_pc`) and
the record has a non-empty target transcript, the hypothesis selected is
the beam candidate whose text, after lowercasing and stripping the fixed
punctuation set ",.?", has minimum word-level edit distance to the RAW
whitespace-split target transcript (the target itself is neither
lowercased nor stripped), with ties broken deterministically in favor of
the first-seen candidate — provided some candidate scores below the
initial sentinel distance 1000. -/
theorem choose_hypothesis_first_min_raw_target (target best_text : String)
    (beams : List String) (ht : target ≠ "")
    (hex : ∃ c ∈ beams, wer_dist (pySplit target) c < 1000) :
    ∃ i, i < beams.length
      ∧ choose_hypothesis true target best_text beams = beams.getD i ""
      ∧ (∀ c ∈ beams,
          wer_dist (pySplit target) (beams.getD i "") ≤ wer_dist (pySplit target) c)
      ∧ (∀ j, j < i →
          wer_dist (pySplit target) (beams.getD i "")
            < wer_dist (pySplit target) (beams.getD j "")) := by
  unfold choose_hypothesis
  rw [if_pos ⟨ht, rfl⟩]
  unfold select_min_wer
  rcases selectGo_first_min (wer_dist (pySplit target)) beams "" 1000 hex with
    ⟨i, hi, hres, _, hmin, hstrict⟩
  exact ⟨i, hi, hres, hmin, hstrict⟩

theorem choose_hypothesis_first_min_raw_target_witness :
    (choose_hypothesis true "the cat sat" "" ["the cat sat", "a cat sad"] = "the cat sat")
    ∧ ∃ i, i < (["the cat sat", "a cat sad"] : List String).length
      ∧ choose_hypothesis true "the cat sat" "" ["the cat sat", "a cat sad"]
          = (["the cat sat", "a cat sad"] : List String).getD i ""
      ∧ (∀ c ∈ (["the cat sat", "a cat sad"] : List String),
          wer_dist (pySplit "the cat sat")
              ((["the cat sat", "a cat sad"] : List String).getD i "")
            ≤ wer_dist (pySplit "the cat sat") c)
      ∧ (∀ j, j < i →
          wer_dist (pySplit "the cat sat")
              ((["the cat sat", "a cat sad"] : List String).getD i "")
            < wer_dist (pySplit "the cat sat")
                ((["the cat sat", "a cat sad"] : List String).getD j "")) :=
  ⟨by decide,
   choose_hypothesis_first_min_raw_target "the cat sat" "" _ (by decide) (by decide)⟩

end SlimIPL
